import Mathlib

/-!
Verification development for the podcast feed application in src/app.py.

The Python source is shallowly embedded: Python strings are modelled through
their character lists, Python None through Option, the SQLite database through
an explicit record of feed rows and episode rows, and the network fetch
through an oracle argument of type Except.  Every definition is translated
from the source file; deviations forced by runtime semantics (for example the
SQLite foreign-key pragma being off by default) are noted in comments.
-/

namespace PodcastFeed

/-! ### Python string primitives -/

/-- Characters treated as whitespace by Python str.strip and the regex
class backslash-s (ASCII subset; the unicode extras are not used by any
input considered here). -/
def pyIsSpace (c : Char) : Bool :=
  c = ' ' || c = '\t' || c = '\n' || c = '\r' || c = '\x0b' || c = '\x0c'

/-- Model of Python str.strip: drop leading and trailing whitespace. -/
def pyStrip (s : String) : String :=
  String.mk (((s.data.dropWhile pyIsSpace).reverse.dropWhile pyIsSpace).reverse)

/-- Numeric value of a decimal digit character. -/
def dval (c : Char) : Nat := c.toNat - 48

/-- Digits with optional single underscores between digit groups, as accepted
by Python int() after an optional sign: digit+( underscore digit+ )*. -/
def pyIntCore : List Char → Nat → Option Nat
  | [], acc => some acc
  | '_' :: c :: rest, acc =>
      if c.isDigit then pyIntCore rest (acc * 10 + dval c) else none
  | ['_'], _ => none
  | c :: rest, acc =>
      if c.isDigit then pyIntCore rest (acc * 10 + dval c) else none

/-- Nonempty digit sequence with optional single underscores between digits. -/
def pyIntDigits (l : List Char) : Option Nat :=
  match l with
  | c :: rest => if c.isDigit then pyIntCore rest (dval c) else none
  | [] => none

/-- Model of Python int(str) applied to an already stripped string: optional
sign, then decimal digits with optional single underscores between digits.
Returns none where Python raises ValueError. -/
def pyInt (s : String) : Option Int :=
  match s.data with
  | '+' :: rest => (pyIntDigits rest).map (fun n => (n : Int))
  | '-' :: rest => (pyIntDigits rest).map (fun n => -(n : Int))
  | l => (pyIntDigits l).map (fun n => (n : Int))

/-- Decimal digit string of a natural number, as printed by Python. -/
def natDec (n : Nat) : String := String.mk (Nat.toDigits 10 n)

/-- Decimal string of an integer, as printed by Python. -/
def intDec (i : Int) : String :=
  if i < 0 then "-" ++ natDec i.natAbs else natDec i.toNat

/-- Model of the Python format directive for zero-padding an integer to a
minimum width of two characters. -/
def padInt2 (i : Int) : String :=
  if 0 ≤ i && i < 10 then "0" ++ natDec i.toNat else intDec i

/-! ### Duration normalizer, src/app.py lines 61-81 -/

/-- Formatting of a whole number of seconds, src/app.py lines 74-79.  Python
divmod is floor division with remainder, so Int.fdiv and Int.fmod. -/
def fmtSeconds (n : Int) : String :=
  let h := Int.fdiv n 3600
  let rem := Int.fmod n 3600
  let m := Int.fdiv rem 60
  let s := Int.fmod rem 60
  if 0 < h then intDec h ++ ":" ++ padInt2 m ++ ":" ++ padInt2 s
  else intDec m ++ ":" ++ padInt2 s

/-- Embedding of parse_duration, src/app.py lines 61-81.  A Python None
argument is the none case; the empty string is falsy in Python, so it also
returns None before the strip.  Otherwise the string is stripped, returned
as is when it contains a colon, reformatted when int() accepts it, and
returned (stripped) when int() raises. -/
def parse_duration : Option String → Option String
  | none => none
  | some s =>
    if s = "" then none
    else
      let t := pyStrip s
      if t.data.contains ':' then some t
      else
        match pyInt t with
        | some n => some (fmtSeconds n)
        | none => some t

/-! ### Description cleaning, src/app.py line 186

The source applies re.sub with the pattern: left angle bracket, one or more
characters that are not a right angle bracket, right angle bracket - then
html.unescape, then slicing to the first 500 characters. -/

/-- One pass of the tag-stripping regex, with fuel for termination.  At a
left angle bracket: when the rest holds a right angle bracket with at least
one character before it, the whole bracketed group is a match and is removed;
otherwise the regex cannot match here and the character is kept.  The fuel is
always at least the list length at every call, so the fuel-zero fallback is
never reached from stripTags. -/
def stripTagsF : Nat → List Char → List Char
  | 0, l => l
  | _ + 1, [] => []
  | f + 1, c :: rest =>
    if c = '<' then
      match rest.dropWhile (fun d => d ≠ '>') with
      | '>' :: rest2 =>
        if rest.takeWhile (fun d => d ≠ '>') = [] then c :: stripTagsF f rest
        else stripTagsF f rest2
      | _ => c :: stripTagsF f rest
    else c :: stripTagsF f rest

/-- Model of the re.sub call on src/app.py line 186. -/
def stripTags (l : List Char) : List Char := stripTagsF l.length l

/-- Predecessor table for the character references handled by the model of
html.unescape: name characters paired with the replacement character.
Longest alternatives come first so that prefix lookup matches Python, which
takes the longest known entity prefix. -/
def entityTable : List (List Char × Char) :=
  [ (['a', 'm', 'p', ';'], '&'), (['a', 'm', 'p'], '&'),
    (['l', 't', ';'], '<'), (['l', 't'], '<'),
    (['g', 't', ';'], '>'), (['g', 't'], '>'),
    (['q', 'u', 'o', 't', ';'], '"'), (['q', 'u', 'o', 't'], '"'),
    (['a', 'p', 'o', 's', ';'], Char.ofNat 39),
    (['n', 'b', 's', 'p', ';'], Char.ofNat 160), (['n', 'b', 's', 'p'], Char.ofNat 160) ]

/-- Remaining input after a literal, or none when the literal is not a
leading part of the input. -/
def matchLit : List Char → List Char → Option (List Char)
  | [], rest => some rest
  | a :: ps, b :: rest => if a = b then matchLit ps rest else none
  | _ :: _, [] => none

/-- Hexadecimal digit value. -/
def hexVal (c : Char) : Option Nat :=
  if c.isDigit then some (dval c)
  else if 'a' ≤ c && c ≤ 'f' then some (c.toNat - 87)
  else if 'A' ≤ c && c ≤ 'F' then some (c.toNat - 55)
  else none

/-- Code point to character; invalid scalar values become the replacement
character, as html.unescape produces for out-of-range references. -/
def codePointChar (n : Nat) : Char :=
  if n.isValidChar then Char.ofNat n else Char.ofNat 0xFFFD

/-- Fold a digit list to its value in the given base using the given digit
valuation. -/
def digitsVal (base : Nat) (f : Char → Nat) (l : List Char) : Nat :=
  l.foldl (fun a c => a * base + f c) 0

/-- First table entry whose name is a leading part of the input, tried in
table order so that longer alternatives win. -/
def matchNamed : List (List Char × Char) → List Char → Option (Char × List Char)
  | [], _ => none
  | p :: tbl, cs =>
    match matchLit p.fst cs with
    | some rest => some (p.snd, rest)
    | none => matchNamed tbl cs

/-- Recognize one character reference right after an ampersand, returning the
replacement character and the remaining input.  Covers decimal and
hexadecimal numeric references with optional semicolon and a core table of
named references; this is the portion of the html.unescape table exercised by
podcast descriptions, and references outside it are left untouched exactly as
unknown names are in Python. -/
def matchEntity (cs : List Char) : Option (Char × List Char) :=
  match cs with
  | '#' :: rest =>
    match rest with
    | 'x' :: r2 =>
      let ds := r2.takeWhile (fun c => (hexVal c).isSome)
      let r3 := r2.dropWhile (fun c => (hexVal c).isSome)
      if ds = [] then none
      else
        let v := digitsVal 16 (fun c => (hexVal c).getD 0) ds
        match r3 with
        | ';' :: r4 => some (codePointChar v, r4)
        | _ => some (codePointChar v, r3)
    | 'X' :: r2 =>
      let ds := r2.takeWhile (fun c => (hexVal c).isSome)
      let r3 := r2.dropWhile (fun c => (hexVal c).isSome)
      if ds = [] then none
      else
        let v := digitsVal 16 (fun c => (hexVal c).getD 0) ds
        match r3 with
        | ';' :: r4 => some (codePointChar v, r4)
        | _ => some (codePointChar v, r3)
    | _ =>
      let ds := rest.takeWhile Char.isDigit
      let r3 := rest.dropWhile Char.isDigit
      if ds = [] then none
      else
        let v := digitsVal 10 dval ds
        match r3 with
        | ';' :: r4 => some (codePointChar v, r4)
        | _ => some (codePointChar v, r3)
  | _ => matchNamed entityTable cs

/-- Model of html.unescape with fuel for termination; the fuel is at least
the list length at every call arising from htmlUnescape, so the fuel-zero
fallback is never reached. -/
def htmlUnescapeF : Nat → List Char → List Char
  | 0, l => l
  | _ + 1, [] => []
  | f + 1, c :: rest =>
    if c = '&' then
      match matchEntity rest with
      | some (r, rest2) => r :: htmlUnescapeF f rest2
      | none => c :: htmlUnescapeF f rest
    else c :: htmlUnescapeF f rest

/-- Model of html.unescape as used on src/app.py line 186. -/
def htmlUnescape (l : List Char) : List Char := htmlUnescapeF l.length l

/-- Embedding of the description cleanup on src/app.py line 186: strip tags,
unescape entities, then keep the first 500 characters. -/
def cleanDescription (s : String) : String :=
  String.mk ((htmlUnescape (stripTags s.data)).take 500)

/-! ### Date normalizer, src/app.py lines 84-104

parse_date tries four strptime formats in order and renders the first hit
with strftime.  Each format is embedded as a parser over the character list
following the regexes that Python strptime builds: a numeric directive
matches one or two digits (four for the year), names match case
insensitively, literal whitespace in the format matches a nonempty
whitespace run, and the whole input must be consumed.  A datetime
constructed from the matched fields validates its ranges; a failed
validation behaves like a failed match, sending parse_date to the next
format. -/

/-- Naive datetime fields as carried by a Python datetime. -/
structure DT where
  year : Nat
  month : Nat
  day : Nat
  hour : Nat
  minute : Nat
  second : Nat
deriving DecidableEq, Repr

/-- Leap year rule used by the Python calendar. -/
def isLeap (y : Nat) : Bool :=
  y % 4 = 0 && (y % 100 ≠ 0 || y % 400 = 0)

/-- Days in a month of a given year. -/
def daysInMonth (y m : Nat) : Nat :=
  if m = 2 then (if isLeap y then 29 else 28)
  else if m = 4 || m = 6 || m = 9 || m = 11 then 30
  else 31

/-- Range checks performed by the datetime constructor. -/
def dtValid (d : DT) : Bool :=
  1 ≤ d.year && d.year ≤ 9999 && 1 ≤ d.month && d.month ≤ 12 &&
  1 ≤ d.day && d.day ≤ daysInMonth d.year d.month &&
  d.hour ≤ 23 && d.minute ≤ 59 && d.second ≤ 59

/-- Datetimes that passed constructor validation. -/
def ValidDT := { d : DT // dtValid d = true }

instance : DecidableEq ValidDT := Subtype.instDecidableEq

/-- The datetime constructor: fields to a validated datetime, or none where
Python raises ValueError. -/
def mkDT (y mo d h mi s : Nat) : Option ValidDT :=
  if hv : dtValid ⟨y, mo, d, h, mi, s⟩ = true then some ⟨⟨y, mo, d, h, mi, s⟩, hv⟩
  else none

/-- Lower-case an ASCII letter, for the case-insensitive strptime regexes. -/
def lowerC (c : Char) : Char :=
  if 'A' ≤ c && c ≤ 'Z' then Char.ofNat (c.toNat + 32) else c

/-- Consume a nonempty whitespace run, the regex image of a literal space in
a strptime format. -/
def pWs (cs : List Char) : Option (List Char) :=
  match cs with
  | c :: rest => if pyIsSpace c then some (rest.dropWhile pyIsSpace) else none
  | [] => none

/-- Consume one exact character. -/
def pChar (c : Char) (cs : List Char) : Option (List Char) :=
  match cs with
  | b :: rest => if b = c then some rest else none
  | [] => none

/-- Consume one character up to ASCII case, since strptime compiles its
regexes with IGNORECASE. -/
def pCharCI (c : Char) (cs : List Char) : Option (List Char) :=
  match cs with
  | b :: rest => if lowerC b = lowerC c then some rest else none
  | [] => none

/-- A numeric strptime directive.  The built regex alternation accepts one
or two digits; because every numeric directive in the four formats is
followed by a non-digit or the end, a successful overall match must consume
the whole leading digit run, so the run must have length one or two and
satisfy the directive's range. -/
def pNumField (ok1 ok2 : Nat → Bool) (cs : List Char) : Option (Nat × List Char) :=
  match cs.takeWhile Char.isDigit, cs.dropWhile Char.isDigit with
  | [c], rest => if ok1 (dval c) then some (dval c, rest) else none
  | [c1, c2], rest =>
    let v := dval c1 * 10 + dval c2
    if ok2 v then some (v, rest) else none
  | _, _ => none

/-- The year directive: exactly four digits. -/
def pYear (cs : List Char) : Option (Nat × List Char) :=
  match cs.takeWhile Char.isDigit, cs.dropWhile Char.isDigit with
  | [a, b, c, d], rest => some (dval a * 1000 + dval b * 100 + dval c * 10 + dval d, rest)
  | _, _ => none

/-- Day directive: 1-9 as one digit, 01-31 as two. -/
def pDay (cs : List Char) : Option (Nat × List Char) :=
  pNumField (fun v => 1 ≤ v) (fun v => 1 ≤ v && v ≤ 31) cs

/-- Numeric month directive: 1-9 as one digit, 01-12 as two. -/
def pMonthNum (cs : List Char) : Option (Nat × List Char) :=
  pNumField (fun v => 1 ≤ v) (fun v => 1 ≤ v && v ≤ 12) cs

/-- Hour directive: any one digit, 00-23 as two. -/
def pHour (cs : List Char) : Option (Nat × List Char) :=
  pNumField (fun _ => true) (fun v => v ≤ 23) cs

/-- Minute directive: any one digit, 00-59 as two. -/
def pMinute (cs : List Char) : Option (Nat × List Char) :=
  pNumField (fun _ => true) (fun v => v ≤ 59) cs

/-- Second directive: any one digit, 00-61 as two; values 60 and 61 pass the
regex but are then rejected by the datetime constructor. -/
def pSecond (cs : List Char) : Option (Nat × List Char) :=
  pNumField (fun _ => true) (fun v => v ≤ 61) cs

/-- Abbreviated weekday names; the parsed weekday is not used to build the
datetime and is not compared with the date. -/
def weekdayNames : List (List Char) :=
  [ ['m', 'o', 'n'], ['t', 'u', 'e'], ['w', 'e', 'd'], ['t', 'h', 'u'],
    ['f', 'r', 'i'], ['s', 'a', 't'], ['s', 'u', 'n'] ]

/-- Abbreviated month names in month order. -/
def monthNames : List (List Char) :=
  [ ['j', 'a', 'n'], ['f', 'e', 'b'], ['m', 'a', 'r'], ['a', 'p', 'r'],
    ['m', 'a', 'y'], ['j', 'u', 'n'], ['j', 'u', 'l'], ['a', 'u', 'g'],
    ['s', 'e', 'p'], ['o', 'c', 't'], ['n', 'o', 'v'], ['d', 'e', 'c'] ]

/-- Consume one of the names, case insensitively, returning its 1-based
index. -/
def pName (names : List (List Char)) (cs : List Char) : Option (Nat × List Char) :=
  let rec go : List (List Char) → Nat → Option (Nat × List Char)
    | [], _ => none
    | n :: rest, i =>
      match matchLit n (cs.map lowerC) with
      | some _ => some (i, cs.drop n.length)
      | none => go rest (i + 1)
  go names 1

/-- Weekday directive. -/
def pWeekday (cs : List Char) : Option (List Char) :=
  (pName weekdayNames cs).map (fun p => p.snd)

/-- Month-name directive. -/
def pMonthName (cs : List Char) : Option (Nat × List Char) :=
  pName monthNames cs

/-- Timezone-name directive.  The names known to strptime come from the
locale; in the UTC environment the program runs in they are utc and gmt,
matched case insensitively.  The matched name does not alter the naive
fields. -/
def pTzName (cs : List Char) : Option (List Char) :=
  match matchNamed [(['u', 't', 'c'], ' '), (['g', 'm', 't'], ' ')] (cs.map lowerC) with
  | some _ => some (cs.drop 3)
  | none => none

/-- Two digits as a number, or none. -/
def pTwoDigits (cs : List Char) : Option (Nat × List Char) :=
  match cs with
  | a :: b :: rest =>
    if a.isDigit && b.isDigit then some (dval a * 10 + dval b, rest) else none
  | _ => none

/-- Numeric offset directive: sign, two hour digits, optional colon, two
minute digits, then optionally an optional colon and two second digits with
an optional fraction; or a capital Z.  The offset must stay strictly below
24 hours or the timezone constructor raises, failing the format.  The naive
fields are unaffected, so only the remaining input is returned. -/
def pTzOffset (cs : List Char) : Option (List Char) :=
  match cs with
  | 'Z' :: rest => some rest
  | sn :: rest =>
    if sn = '+' || sn = '-' then
      match pTwoDigits rest with
      | none => none
      | some (h, r1) =>
        let r1' := match r1 with
          | ':' :: r => if (r.headD ' ').isDigit then r else r1
          | _ => r1
        match pTwoDigits r1' with
        | none => none
        | some (m, r2) =>
          let secPart : Option (Nat × List Char) :=
            match r2 with
            | ':' :: r => pTwoDigits r
            | _ => pTwoDigits r2
          match secPart with
          | some (s, r3) =>
            let r4 := match r3 with
              | '.' :: r =>
                let ds := (r.takeWhile Char.isDigit).take 6
                if ds = [] then r3 else r.drop ds.length
              | _ => r3
            if h * 3600 + m * 60 + s < 86400 then some r4 else none
          | none =>
            if h * 3600 + m * 60 < 86400 then some r2 else none
    else none
  | [] => none

/-- Format a, comma, d, b, Y, H colon M colon S, z - the RFC-822 style
format with numeric offset on src/app.py line 91. -/
def fmt1 (cs : List Char) : Option ValidDT := do
  let r ← pWeekday cs
  let r ← pChar ',' r
  let r ← pWs r
  let (d, r) ← pDay r
  let r ← pWs r
  let (mo, r) ← pMonthName r
  let r ← pWs r
  let (y, r) ← pYear r
  let r ← pWs r
  let (h, r) ← pHour r
  let r ← pChar ':' r
  let (mi, r) ← pMinute r
  let r ← pChar ':' r
  let (s, r) ← pSecond r
  let r ← pWs r
  let r ← pTzOffset r
  if r = [] then mkDT y mo d h mi s else none

/-- The same with a named timezone, src/app.py line 92. -/
def fmt2 (cs : List Char) : Option ValidDT := do
  let r ← pWeekday cs
  let r ← pChar ',' r
  let r ← pWs r
  let (d, r) ← pDay r
  let r ← pWs r
  let (mo, r) ← pMonthName r
  let r ← pWs r
  let (y, r) ← pYear r
  let r ← pWs r
  let (h, r) ← pHour r
  let r ← pChar ':' r
  let (mi, r) ← pMinute r
  let r ← pChar ':' r
  let (s, r) ← pSecond r
  let r ← pWs r
  let r ← pTzName r
  if r = [] then mkDT y mo d h mi s else none

/-- ISO-8601 with offset, src/app.py line 93. -/
def fmt3 (cs : List Char) : Option ValidDT := do
  let (y, r) ← pYear cs
  let r ← pChar '-' r
  let (mo, r) ← pMonthNum r
  let r ← pChar '-' r
  let (d, r) ← pDay r
  let r ← pCharCI 'T' r
  let (h, r) ← pHour r
  let r ← pChar ':' r
  let (mi, r) ← pMinute r
  let r ← pChar ':' r
  let (s, r) ← pSecond r
  let r ← pTzOffset r
  if r = [] then mkDT y mo d h mi s else none

/-- Bare ISO date, src/app.py line 94; the time fields default to zero. -/
def fmt4 (cs : List Char) : Option ValidDT := do
  let (y, r) ← pYear cs
  let r ← pChar '-' r
  let (mo, r) ← pMonthNum r
  let r ← pChar '-' r
  let (d, r) ← pDay r
  if r = [] then mkDT y mo d 0 0 0 else none

/-- The fixed priority order of src/app.py lines 90-95: the first format
that matches wins. -/
def tryFormats (cs : List Char) : Option ValidDT :=
  match fmt1 cs with
  | some d => some d
  | none =>
    match fmt2 cs with
    | some d => some d
    | none =>
      match fmt3 cs with
      | some d => some d
      | none => fmt4 cs

/-- A decimal digit character from the residue class of a number. -/
def digitChar (n : Nat) : Char :=
  match n % 10 with
  | 0 => '0' | 1 => '1' | 2 => '2' | 3 => '3' | 4 => '4'
  | 5 => '5' | 6 => '6' | 7 => '7' | 8 => '8' | _ => '9'

/-- The strftime rendering of src/app.py line 100: year zero-padded to four
digits, the other fields to two, in the shape Y-m-d H:M. -/
def fmtOut (d : DT) : String :=
  String.mk
    [ digitChar (d.year / 1000), digitChar (d.year / 100),
      digitChar (d.year / 10), digitChar d.year, '-',
      digitChar (d.month / 10), digitChar d.month, '-',
      digitChar (d.day / 10), digitChar d.day, ' ',
      digitChar (d.hour / 10), digitChar d.hour, ':',
      digitChar (d.minute / 10), digitChar d.minute ]

/-- Embedding of parse_date, src/app.py lines 84-104.  None and the falsy
empty string return None; otherwise the stripped string is tried against the
four formats in order and the first validated hit is rendered; when no
format matches, the first 25 characters of the original string are
returned. -/
def parse_date : Option String → Option String
  | none => none
  | some s =>
    if s = "" then none
    else
      match tryFormats (pyStrip s).data with
      | some d => some (fmtOut d.val)
      | none => some (String.mk (s.data.take 25))

/-! ### XML documents and the feed parser, src/app.py lines 107-202

ElementTree is embedded as a tree of elements.  An element carries its tag
(namespace-qualified tags are written with the namespace URI between braces,
exactly as ElementTree stores them), its attributes, its text and its
children.  The network fetch and the XML tokenizer are outside the embedded
fragment: parseFeed starts from the parsed document root, and the handlers
below take the whole fetch-and-parse outcome as an Except oracle. -/

/-- An XML element as stored by ElementTree. -/
inductive Xml where
  | elem (tag : String) (attrs : List (String × String))
      (text : Option String) (children : List Xml)
deriving Repr

/-- Tag of an element. -/
def Xml.tag : Xml → String
  | .elem t _ _ _ => t

/-- Attribute list of an element. -/
def Xml.attrs : Xml → List (String × String)
  | .elem _ a _ _ => a

/-- Text of an element, none when absent. -/
def Xml.text : Xml → Option String
  | .elem _ _ t _ => t

/-- Children of an element. -/
def Xml.children : Xml → List Xml
  | .elem _ _ _ c => c

/-- Model of Element.get: the first attribute with the name, or None. -/
def Xml.get (e : Xml) (name : String) : Option String :=
  (e.attrs.find? (fun p => p.fst = name)).map (fun p => p.snd)

/-- Model of Element.find with a plain tag: first direct child with the
tag. -/
def Xml.find (e : Xml) (t : String) : Option Xml :=
  e.children.find? (fun c => c.tag = t)

mutual
/-- All proper descendants of an element in document order. -/
def Xml.descendants : Xml → List Xml
  | .elem _ _ _ cs => descendantsList cs

/-- The elements of a forest together with their descendants, in document
order. -/
def descendantsList : List Xml → List Xml
  | [] => []
  | x :: xs => x :: (Xml.descendants x ++ descendantsList xs)
end

/-- Model of Element.find with a dot-slash-slash path: first proper
descendant with the tag, in document order. -/
def Xml.findDesc (e : Xml) (t : String) : Option Xml :=
  e.descendants.find? (fun c => c.tag = t)

/-- Namespace-qualified tag names used by the source, with the brace
characters of the ElementTree qualified-name syntax. -/
def atomFeedTag : String := "\x7bhttp://www.w3.org/2005/Atom\x7dfeed"

/-- Qualified tag of the media-extension content element. -/
def mrssContentTag : String := "\x7bhttp://search.yahoo.com/mrss/\x7dcontent"

/-- Qualified tag of the iTunes summary element. -/
def itunesSummaryTag : String :=
  "\x7bhttp://www.itunes.com/dtds/podcast-1.0.dtd\x7dsummary"

/-- Qualified tag of the iTunes duration element. -/
def itunesDurationTag : String :=
  "\x7bhttp://www.itunes.com/dtds/podcast-1.0.dtd\x7dduration"

/-- Qualified tag of the iTunes image element. -/
def itunesImageTag : String :=
  "\x7bhttp://www.itunes.com/dtds/podcast-1.0.dtd\x7dimage"

/-- Qualified tag of the content-module encoded element. -/
def contentEncodedTag : String :=
  "\x7bhttp://purl.org/rss/1.0/modules/content/\x7dencoded"

/-- Python truthiness of an optional string: None and the empty string are
falsy. -/
def pyFalsyOpt : Option String → Bool
  | none => true
  | some s => s = ""

/-- The or-default idiom applied to find_text results: a falsy value is
replaced by the default. -/
def pyOr (o : Option String) (d : String) : String :=
  match o with
  | some s => if s = "" then d else s
  | none => d

/-- Embedding of the find_text helper, src/app.py lines 142-147: first
listed child element whose text is truthy, returning the stripped text.
The tag list is given with namespaces already resolved. -/
def findText (e : Xml) : List String → Option String
  | [] => none
  | t :: rest =>
    match e.find t with
    | some el =>
      match el.text with
      | some s => if s = "" then findText e rest else some (pyStrip s)
      | none => findText e rest
    | none => findText e rest

/-- The audio URL of an item, src/app.py lines 166-176: the enclosure url
attribute; when that is falsy, the url attribute of a media-extension
content descendant if one exists; an item whose final value is falsy is
skipped, so a surviving URL is a nonempty string. -/
def resolvedAudio (item : Xml) : Option String :=
  let a0 : Option String :=
    match item.find "enclosure" with
    | some enc => enc.get "url"
    | none => none
  let a1 : Option String :=
    if pyFalsyOpt a0 then
      match item.findDesc mrssContentTag with
      | some media => media.get "url"
      | none => a0
    else a0
  if pyFalsyOpt a1 then none else a1

/-- One parsed episode record, src/app.py lines 188-195. -/
structure EpisodeData where
  guid : String
  title : String
  description : Option String
  audio_url : String
  pub_date : Option String
  duration : Option String
deriving DecidableEq, Repr

/-- Building one episode record from a surviving item, src/app.py lines
178-195.  The description is cleaned only when truthy. -/
def mkEpisode (item : Xml) (url : String) : EpisodeData :=
  let descr0 := findText item ["description", contentEncodedTag, itunesSummaryTag]
  { guid := pyOr (findText item ["guid"]) url
    title := pyOr (findText item ["title"]) "Untitled"
    description :=
      match descr0 with
      | some s => some (if s = "" then s else cleanDescription s)
      | none => none
    audio_url := url
    pub_date := parse_date (findText item ["pubDate", "published"])
    duration := parse_duration (findText item [itunesDurationTag, "duration"]) }

/-- The episode loop of src/app.py lines 164-195: items without a resolved
audio URL are skipped, the others produce records in document order. -/
def extractEpisodes : List Xml → List EpisodeData
  | [] => []
  | it :: rest =>
    match resolvedAudio it with
    | some u => mkEpisode it u :: extractEpisodes rest
    | none => extractEpisodes rest

/-- Parsed feed result, src/app.py lines 197-202. -/
structure FeedData where
  title : String
  description : Option String
  image_url : Option String
  episodes : List EpisodeData
deriving DecidableEq, Repr

/-- Channel location, src/app.py lines 129-133: a direct channel child,
else the first Atom feed descendant. -/
def locateChannel (root : Xml) : Option Xml :=
  match root.find "channel" with
  | some c => some c
  | none => root.findDesc atomFeedTag

/-- The feed image lookup, src/app.py lines 154-161: the href attribute of
an iTunes image child; when falsy, the text of the first url element under
an image child, which replaces the value even when that text is None. -/
def feedImage (channel : Xml) : Option String :=
  let i0 :=
    match channel.find itunesImageTag with
    | some ie => ie.get "href"
    | none => none
  if pyFalsyOpt i0 then
    match ((channel.children.filter (fun c => c.tag = "image")).flatMap
        Xml.children).find? (fun c => c.tag = "url") with
    | some el => el.text
    | none => i0
  else i0

/-- Embedding of the parsing part of fetch_feed, src/app.py lines 128-202,
starting from the parsed XML root.  Failure to locate a channel is the
no-channel error; the network and XML-wellformedness failures are upstream
of this function and are represented by the Except oracle fed to the
handlers. -/
def parseFeed (root : Xml) : Except String FeedData :=
  match locateChannel root with
  | none => Except.error "No channel found in feed"
  | some channel =>
    Except.ok
      { title := pyOr (findText channel ["title"]) "Unknown Podcast"
        description := findText channel ["description", itunesSummaryTag]
        image_url := feedImage channel
        episodes := extractEpisodes (channel.children.filter (fun c => c.tag = "item")) }

/-! ### The database and the handlers, src/app.py lines 27-58 and 211-364

The SQLite database of init_db is embedded as lists of feed rows and episode
rows plus the autoincrement counters.  The unique constraint on the pair of
feed id and audio URL makes the OR IGNORE insert a counted no-op.  One
runtime fact matters for deletion: sqlite3 connections leave the foreign-key
pragma off and get_db never enables it, so the ON DELETE CASCADE clause
declared in the schema is inert and deleting a feed removes only the feed
row.  The playback position is a REAL column only ever stored and compared,
embedded as a rational number. -/

/-- A row of the feeds table.  The added_at timestamp column only orders the
feed listing, which no claim touches, and is omitted. -/
structure Feed where
  id : Nat
  url : String
  title : String
  description : Option String
  image_url : Option String
deriving DecidableEq, Repr

/-- A row of the episodes table. -/
structure EpisodeRow where
  id : Nat
  feed_id : Nat
  guid : String
  title : String
  description : Option String
  audio_url : String
  pub_date : Option String
  duration : Option String
  played : Bool
  position : Rat
deriving DecidableEq, Repr

/-- The database state. -/
structure DB where
  feeds : List Feed
  episodes : List EpisodeRow
  nextFeedId : Nat
  nextEpisodeId : Nat
deriving DecidableEq, Repr

/-- Whether an episode row with the unique key already exists. -/
def hasEpisodeKey (db : DB) (fid : Nat) (url : String) : Bool :=
  db.episodes.any (fun e => e.feed_id = fid && e.audio_url = url)

/-- The OR IGNORE episode insert of src/app.py lines 254-259 and 309-314:
a no-op when the unique key exists, otherwise a new row with the default
played and position values; the boolean reports whether a row was added,
which is what cursor.rowcount exposes. -/
def insertEpisode (db : DB) (fid : Nat) (ep : EpisodeData) : DB × Bool :=
  if hasEpisodeKey db fid ep.audio_url then (db, false)
  else
    ({ db with
        episodes := db.episodes ++
          [{ id := db.nextEpisodeId, feed_id := fid, guid := ep.guid,
             title := ep.title, description := ep.description,
             audio_url := ep.audio_url, pub_date := ep.pub_date,
             duration := ep.duration, played := false, position := 0 }]
        nextEpisodeId := db.nextEpisodeId + 1 },
      true)

/-- The episode insert loop, counting the inserts that added a row. -/
def insertEpisodes : DB → Nat → List EpisodeData → DB × Nat
  | db, _, [] => (db, 0)
  | db, fid, ep :: rest =>
    let r1 := insertEpisode db fid ep
    let r2 := insertEpisodes r1.fst fid rest
    (r2.fst, (if r1.snd then 1 else 0) + r2.snd)

/-- Feed lookup by id. -/
def findFeed (db : DB) (fid : Nat) : Option Feed :=
  db.feeds.find? (fun f => f.id = fid)

/-- Whether a feed with the URL exists, the duplicate check of src/app.py
line 233. -/
def feedUrlExists (db : DB) (url : String) : Bool :=
  db.feeds.any (fun f => f.url = url)

/-- Responses of the add-feed handler. -/
inductive AddResp where
  | badRequest (msg : String)
  | conflict
  | created (feedId : Nat) (episodeCount : Nat)
deriving DecidableEq, Repr

/-- Responses of the refresh handler. -/
inductive RefResp where
  | notFound
  | badRequest (msg : String)
  | ok (newEpisodes : Nat)
deriving DecidableEq, Repr

/-- Embedding of add_feed, src/app.py lines 222-271.  The fetch-and-parse
of the URL is the oracle argument; it is consulted only on the branch where
the source calls fetch_feed, so a result independent of the oracle shows no
fetch was performed.  The reported episode count is the length of the
parsed list, not the number of rows inserted. -/
def addFeed (fetch : String → Except String FeedData) (db : DB) (rawUrl : String) :
    DB × AddResp :=
  let url := pyStrip rawUrl
  if url = "" then (db, AddResp.badRequest "URL is required")
  else if feedUrlExists db url then (db, AddResp.conflict)
  else
    match fetch url with
    | Except.error e => (db, AddResp.badRequest e)
    | Except.ok fd =>
      let fid := db.nextFeedId
      let db1 : DB :=
        { db with
            feeds := db.feeds ++
              [{ id := fid, url := url, title := fd.title,
                 description := fd.description, image_url := fd.image_url }]
            nextFeedId := fid + 1 }
      ((insertEpisodes db1 fid fd.episodes).fst, AddResp.created fid fd.episodes.length)

/-- The metadata update of src/app.py lines 301-304. -/
def updateFeedMeta (db : DB) (fid : Nat) (fd : FeedData) : DB :=
  { db with
      feeds := db.feeds.map (fun f =>
        if f.id = fid then
          { f with title := fd.title, description := fd.description,
                   image_url := fd.image_url }
        else f) }

/-- Embedding of refresh_feed, src/app.py lines 284-321.  The argument is
the outcome of fetching and parsing the stored URL; only reached when the
feed exists. -/
def refreshFeed (db : DB) (fid : Nat) (fetched : Except String FeedData) :
    DB × RefResp :=
  match findFeed db fid with
  | none => (db, RefResp.notFound)
  | some _ =>
    match fetched with
    | Except.error e => (db, RefResp.badRequest e)
    | Except.ok fd =>
      let db1 := updateFeedMeta db fid fd
      let r := insertEpisodes db1 fid fd.episodes
      (r.fst, RefResp.ok r.snd)

/-- Embedding of delete_feed, src/app.py lines 274-281.  The delete
statement targets the feeds table; with the foreign-key pragma off the
cascade clause of the schema does not execute, so episode rows are left in
place.  The handler returns 204 regardless of whether a row matched. -/
def deleteFeed (db : DB) (fid : Nat) : DB :=
  { db with feeds := db.feeds.filter (fun f => f.id ≠ fid) }

/-- The rows returned by list_episodes, src/app.py lines 324-334, as a set:
the source also orders by publication date and id, which permutes the
selection without changing it. -/
def listEpisodes (db : DB) (fid : Nat) : List EpisodeRow :=
  db.episodes.filter (fun e => e.feed_id = fid)

/-- Embedding of update_progress, src/app.py lines 337-351: an
unconditional update of position and played on the row with the id, a no-op
when no row matches, always answering 204. -/
def updateProgress (db : DB) (eid : Nat) (pos : Rat) (pl : Bool) : DB × Nat :=
  ({ db with
      episodes := db.episodes.map (fun e =>
        if e.id = eid then { e with position := pos, played := pl } else e) },
    204)

/-- Embedding of mark_played, src/app.py lines 354-364: toggles the played
flag of the row with the id, a no-op when no row matches, always answering
204. -/
def markPlayed (db : DB) (eid : Nat) : DB × Nat :=
  ({ db with
      episodes := db.episodes.map (fun e =>
        if e.id = eid then { e with played := !e.played } else e) },
    204)

/-- The natural-completion request issued when playback reaches the end:
the embedded client (src/app.py lines 1109-1119) answers the ended event
with a progress update carrying position zero and played true, which the
progress handler applies as one update statement. -/
def naturalCompletion (db : DB) (eid : Nat) : DB × Nat :=
  updateProgress db eid 0 true

/-! ### Concrete fixtures used by witnesses and counterexamples -/

/-- Qualified tag of an Atom entry, used to state the claim that speaks of
item or entry elements. -/
def atomEntryTag : String := "\x7bhttp://www.w3.org/2005/Atom\x7dentry"

/-- Claim-side predicate: an element the specification counts as an item or
entry of the feed root. -/
def isItemOrEntry (c : Xml) : Bool :=
  c.tag = "item" || c.tag = atomEntryTag

/-- An Atom entry whose enclosure child carries an audio URL. -/
def c2Entry : Xml :=
  Xml.elem atomEntryTag [] none
    [Xml.elem "enclosure" [("url", "http://a/x.mp3")] none []]

/-- An Atom feed element holding that entry. -/
def c2FeedEl : Xml := Xml.elem atomFeedTag [] none [c2Entry]

/-- A document whose located root is the Atom feed element. -/
def c2Root : Xml := Xml.elem "root" [] none [c2FeedEl]

/-- An RSS item with an enclosure audio URL. -/
def c2wItemA : Xml :=
  Xml.elem "item" [] none
    [Xml.elem "enclosure" [("url", "http://a/1.mp3")] none [],
     Xml.elem "title" [] (some "One") []]

/-- An RSS item without any audio reference. -/
def c2wItemB : Xml :=
  Xml.elem "item" [] none [Xml.elem "title" [] (some "Two") []]

/-- A channel with one resolvable and one unresolvable item. -/
def c2wChannel : Xml := Xml.elem "channel" [] none [c2wItemA, c2wItemB]

/-- An RSS document around that channel. -/
def c2wRoot : Xml := Xml.elem "rss" [] none [c2wChannel]

/-- An RSS document whose single item carries the description consisting of
a left angle bracket directly followed by a right angle bracket, which the
tag regex cannot match. -/
def c3cRoot : Xml :=
  Xml.elem "rss" [] none
    [Xml.elem "channel" [] none
      [Xml.elem "item" [] none
        [Xml.elem "enclosure" [("url", "http://a/e.mp3")] none [],
         Xml.elem "description" [] (some "<>") []]]]

/-- An RSS document whose single item carries a plain description. -/
def c3wRoot : Xml :=
  Xml.elem "rss" [] none
    [Xml.elem "channel" [] none
      [Xml.elem "item" [] none
        [Xml.elem "enclosure" [("url", "http://a/e.mp3")] none [],
         Xml.elem "description" [] (some "hello") []]]]

/-- The feed record parseFeed produces for that document. -/
def c3wFd : FeedData :=
  { title := "Unknown Podcast", description := none, image_url := none,
    episodes :=
      [{ guid := "http://a/e.mp3", title := "Untitled",
         description := some "hello", audio_url := "http://a/e.mp3",
         pub_date := none, duration := none }] }

/-- A stored feed used by the database witnesses. -/
def wFeed : Feed :=
  { id := 1, url := "http://f", title := "T", description := none,
    image_url := none }

/-- A database holding that feed and no episodes. -/
def w1Db : DB := { feeds := [wFeed], episodes := [], nextFeedId := 2, nextEpisodeId := 1 }

/-- A parsed feed with one episode, fed to the refresh witness. -/
def w1Fd : FeedData :=
  { title := "T", description := none, image_url := none,
    episodes :=
      [{ guid := "g", title := "E", description := none,
         audio_url := "http://a/e.mp3", pub_date := none, duration := none }] }

/-- A stored episode row partway through playback. -/
def wEpisode : EpisodeRow :=
  { id := 7, feed_id := 1, guid := "g", title := "E", description := none,
    audio_url := "http://a/e.mp3", pub_date := none, duration := none,
    played := false, position := 5 }

/-- A database holding one feed and that episode. -/
def w2Db : DB :=
  { feeds := [wFeed], episodes := [wEpisode], nextFeedId := 2, nextEpisodeId := 8 }

/-- The database of the deletion scenario: one feed owning one episode. -/
def c4Db : DB :=
  { feeds := [wFeed],
    episodes :=
      [{ id := 1, feed_id := 1, guid := "g", title := "E", description := none,
         audio_url := "http://a/e.mp3", pub_date := none, duration := none,
         played := false, position := 0 }],
    nextFeedId := 2, nextEpisodeId := 2 }

/-! ### Helper lemmas -/

/-- Mapping a function that fixes every member of a list is the identity. -/
theorem map_fixed {α : Type} (l : List α) (f : α → α) (h : ∀ a ∈ l, f a = a) :
    l.map f = l := by
  induction l with
  | nil => rfl
  | cons a t ih =>
    simp only [List.map_cons, h a (List.mem_cons_self a t),
      ih (fun b hb => h b (List.mem_cons_of_mem a hb))]

/-- The cleaned description never exceeds 500 characters. -/
theorem cleanDescription_length_le (s : String) : (cleanDescription s).length ≤ 500 :=
  List.length_take_le 500 (htmlUnescape (stripTags s.data))

/-- The episode loop is the filterMap of the per-item extraction. -/
theorem extractEpisodes_eq (l : List Xml) :
    extractEpisodes l = l.filterMap (fun it => (resolvedAudio it).map (mkEpisode it)) := by
  induction l with
  | nil => rfl
  | cons it rest ih =>
    cases h : resolvedAudio it <;> simp [extractEpisodes, h, ih, List.filterMap_cons]

/-- The length of a filterMap is the number of elements the function
accepts. -/
theorem length_filterMap_count {α β : Type} (f : α → Option β) (l : List α) :
    (l.filterMap f).length = (l.filter (fun a => (f a).isSome)).length := by
  induction l with
  | nil => rfl
  | cons a t ih => cases h : f a <;> simp [List.filterMap_cons, h, List.filter_cons, ih]

/-- Inserting episodes never touches the feeds table. -/
theorem insertEpisode_feeds (db : DB) (fid : Nat) (ep : EpisodeData) :
    (insertEpisode db fid ep).fst.feeds = db.feeds := by
  unfold insertEpisode
  split <;> rfl

/-- The insert loop never touches the feeds table. -/
theorem insertEpisodes_feeds (db : DB) (fid : Nat) (l : List EpisodeData) :
    (insertEpisodes db fid l).fst.feeds = db.feeds := by
  induction l generalizing db with
  | nil => rfl
  | cons ep rest ih =>
    simp only [insertEpisodes]
    rw [ih, insertEpisode_feeds]

/-- After an insert, the inserted key is present. -/
theorem insertEpisode_hasKey_self (db : DB) (fid : Nat) (ep : EpisodeData) :
    hasEpisodeKey (insertEpisode db fid ep).fst fid ep.audio_url = true := by
  unfold insertEpisode
  split
  · next h => exact h
  · unfold hasEpisodeKey
    simp [List.any_append]

/-- An insert preserves every key that was already present. -/
theorem insertEpisode_hasKey_mono (db : DB) (fid f : Nat) (u : String) (ep : EpisodeData)
    (h : hasEpisodeKey db f u = true) :
    hasEpisodeKey (insertEpisode db fid ep).fst f u = true := by
  unfold insertEpisode
  split
  · exact h
  · unfold hasEpisodeKey at h ⊢
    simp only [List.any_append, Bool.or_eq_true]
    exact Or.inl h

/-- The insert loop preserves every key that was already present. -/
theorem insertEpisodes_hasKey_mono (db : DB) (fid f : Nat) (u : String)
    (l : List EpisodeData) (h : hasEpisodeKey db f u = true) :
    hasEpisodeKey (insertEpisodes db fid l).fst f u = true := by
  induction l generalizing db with
  | nil => exact h
  | cons ep rest ih =>
    simp only [insertEpisodes]
    exact ih _ (insertEpisode_hasKey_mono _ _ _ _ _ h)

/-- After the insert loop, the key of every listed episode is present. -/
theorem insertEpisodes_hasKey_of_mem (db : DB) (fid : Nat) (l : List EpisodeData)
    (ep : EpisodeData) (hmem : ep ∈ l) :
    hasEpisodeKey (insertEpisodes db fid l).fst fid ep.audio_url = true := by
  induction l generalizing db with
  | nil => cases hmem
  | cons e rest ih =>
    simp only [insertEpisodes]
    rcases List.mem_cons.mp hmem with h | h
    · subst h
      exact insertEpisodes_hasKey_mono _ _ _ _ _ (insertEpisode_hasKey_self db fid ep)
    · exact ih _ h

/-- When every listed key is already present the insert loop is a counted
no-op. -/
theorem insertEpisodes_noop (db : DB) (fid : Nat) (l : List EpisodeData)
    (h : ∀ ep ∈ l, hasEpisodeKey db fid ep.audio_url = true) :
    insertEpisodes db fid l = (db, 0) := by
  induction l generalizing db with
  | nil => rfl
  | cons ep rest ih =>
    have h1 : insertEpisode db fid ep = (db, false) := by
      unfold insertEpisode
      simp [h ep (List.mem_cons_self ep rest)]
    simp only [insertEpisodes, h1]
    simp [ih db (fun e he => h e (List.mem_cons_of_mem ep he))]

/-- The metadata update leaves the episodes table unchanged. -/
theorem updateFeedMeta_episodes (db : DB) (fid : Nat) (fd : FeedData) :
    (updateFeedMeta db fid fd).episodes = db.episodes := rfl

/-- Feed lookup only reads the feeds table. -/
theorem findFeed_congr (db db' : DB) (fid : Nat) (h : db'.feeds = db.feeds) :
    findFeed db' fid = findFeed db fid := by
  unfold findFeed
  rw [h]

/-- Mapping an id-preserving function across a feed list preserves whether
an id lookup resolves. -/
theorem find?_id_map (l : List Feed) (fid : Nat) (g : Feed → Feed)
    (hg : ∀ f, (g f).id = f.id) :
    (List.find? (fun f => f.id = fid) (l.map g)).isSome =
      (List.find? (fun f => f.id = fid) l).isSome := by
  induction l with
  | nil => rfl
  | cons f rest ih =>
    simp only [List.map_cons, List.find?]
    rw [hg f]
    by_cases h : f.id = fid
    · simp [h]
    · simpa [h] using ih

/-- The metadata update preserves whether a feed id resolves. -/
theorem findFeed_updateFeedMeta (db : DB) (fid : Nat) (fd : FeedData) :
    (findFeed (updateFeedMeta db fid fd) fid).isSome = (findFeed db fid).isSome := by
  unfold findFeed updateFeedMeta
  exact find?_id_map db.feeds fid _ (fun f => by split <;> rfl)

/-! ### Claim theorems -/

/-- Claim C1: for every stored feed, refreshing a second time against the
same parsed feed content reports zero new episodes and leaves the episode
rows unchanged, because the insert is keyed on the pair of feed id and audio
URL and an insert on an existing key is a counted no-op. -/
theorem refresh_twice_idempotent (db : DB) (fid : Nat) (fd : FeedData)
    (h : (findFeed db fid).isSome = true) :
    (refreshFeed (refreshFeed db fid (Except.ok fd)).fst fid (Except.ok fd)).snd =
      RefResp.ok 0 ∧
    (refreshFeed (refreshFeed db fid (Except.ok fd)).fst fid (Except.ok fd)).fst.episodes =
      (refreshFeed db fid (Except.ok fd)).fst.episodes := by
  obtain ⟨f, hf⟩ := Option.isSome_iff_exists.mp h
  have hr1 : refreshFeed db fid (Except.ok fd) =
      ((insertEpisodes (updateFeedMeta db fid fd) fid fd.episodes).fst,
        RefResp.ok (insertEpisodes (updateFeedMeta db fid fd) fid fd.episodes).snd) := by
    simp [refreshFeed, hf]
  have hfeeds : (insertEpisodes (updateFeedMeta db fid fd) fid fd.episodes).fst.feeds =
      (updateFeedMeta db fid fd).feeds := insertEpisodes_feeds _ _ _
  have hex1 :
      (findFeed (insertEpisodes (updateFeedMeta db fid fd) fid fd.episodes).fst fid).isSome =
        true := by
    rw [findFeed_congr (updateFeedMeta db fid fd) _ fid hfeeds, findFeed_updateFeedMeta]
    exact h
  obtain ⟨f1, hf1⟩ := Option.isSome_iff_exists.mp hex1
  have hkeq : ∀ u,
      hasEpisodeKey
        (updateFeedMeta (insertEpisodes (updateFeedMeta db fid fd) fid fd.episodes).fst fid fd)
        fid u =
      hasEpisodeKey (insertEpisodes (updateFeedMeta db fid fd) fid fd.episodes).fst fid u := by
    intro u
    unfold hasEpisodeKey
    rw [updateFeedMeta_episodes]
  have hnoop := insertEpisodes_noop
    (updateFeedMeta (insertEpisodes (updateFeedMeta db fid fd) fid fd.episodes).fst fid fd)
    fid fd.episodes
    (fun ep hep => by
      rw [hkeq ep.audio_url]
      exact insertEpisodes_hasKey_of_mem _ _ _ _ hep)
  have hr2 : refreshFeed (insertEpisodes (updateFeedMeta db fid fd) fid fd.episodes).fst fid
      (Except.ok fd) =
      (updateFeedMeta (insertEpisodes (updateFeedMeta db fid fd) fid fd.episodes).fst fid fd,
        RefResp.ok 0) := by
    simp [refreshFeed, hf1, hnoop]
  rw [hr1]
  constructor
  · show (refreshFeed (insertEpisodes (updateFeedMeta db fid fd) fid fd.episodes).fst fid
        (Except.ok fd)).snd = RefResp.ok 0
    rw [hr2]
  · show (refreshFeed (insertEpisodes (updateFeedMeta db fid fd) fid fd.episodes).fst fid
        (Except.ok fd)).fst.episodes =
      (insertEpisodes (updateFeedMeta db fid fd) fid fd.episodes).fst.episodes
    rw [hr2]
    exact updateFeedMeta_episodes _ _ _

/-- Claim C1 witness at a concrete database and feed content. -/
theorem refresh_twice_idempotent_witness :
    (refreshFeed (refreshFeed w1Db 1 (Except.ok w1Fd)).fst 1 (Except.ok w1Fd)).snd =
      RefResp.ok 0 ∧
    (refreshFeed (refreshFeed w1Db 1 (Except.ok w1Fd)).fst 1 (Except.ok w1Fd)).fst.episodes =
      (refreshFeed w1Db 1 (Except.ok w1Fd)).fst.episodes :=
  refresh_twice_idempotent w1Db 1 w1Fd (by decide)

/-- Claim C2 counterexample: a document whose located root is the Atom feed
element with one entry carrying a resolvable audio URL through its enclosure
url attribute; the claim asks for one episode record, but the source only
scans children tagged item, so the parse returns zero records. -/
theorem atom_entry_not_extracted :
    locateChannel c2Root = some c2FeedEl ∧
    ((c2FeedEl.children.filter isItemOrEntry).filter
        (fun it => (resolvedAudio it).isSome)).length = 1 ∧
    (parseFeed c2Root).map (fun fd => fd.episodes.length) = Except.ok 0 :=
  ⟨rfl, rfl, rfl⟩

/-- Claim C2 as amended: for every document whose root is located, the
parse succeeds and its episode records are exactly the direct channel
children tagged item (Atom entry elements are never scanned) that carry a
resolvable audio URL, in document order, each skipped one silently dropped;
in particular the record count is the number of resolvable items. -/
theorem parseFeed_episode_records (root channel : Xml)
    (h : locateChannel root = some channel) :
    ∃ fd, parseFeed root = Except.ok fd ∧
      fd.episodes = (channel.children.filter (fun c => c.tag = "item")).filterMap
          (fun it => (resolvedAudio it).map (mkEpisode it)) ∧
      fd.episodes.length = ((channel.children.filter (fun c => c.tag = "item")).filter
          (fun it => (resolvedAudio it).isSome)).length := by
  unfold parseFeed
  rw [h]
  refine ⟨_, rfl, extractEpisodes_eq _, ?_⟩
  show (extractEpisodes (channel.children.filter (fun c => c.tag = "item"))).length = _
  rw [extractEpisodes_eq]
  have hc := length_filterMap_count (fun it => (resolvedAudio it).map (mkEpisode it))
    (channel.children.filter (fun c => c.tag = "item"))
  simpa [Option.isSome_map'] using hc

/-- Claim C2 witness at a concrete document with one resolvable and one
unresolvable item. -/
theorem parseFeed_episode_records_witness :
    ∃ fd, parseFeed c2wRoot = Except.ok fd ∧
      fd.episodes = (c2wChannel.children.filter (fun c => c.tag = "item")).filterMap
          (fun it => (resolvedAudio it).map (mkEpisode it)) ∧
      fd.episodes.length = ((c2wChannel.children.filter (fun c => c.tag = "item")).filter
          (fun it => (resolvedAudio it).isSome)).length :=
  parseFeed_episode_records c2wRoot c2wChannel rfl

/-- Claim C3 counterexample: an episode produced by the parser whose
description consists of a left angle bracket directly followed by a right
angle bracket; the tag regex needs at least one character between the
brackets, so both markup characters survive cleaning. -/
theorem description_keeps_markup :
    (parseFeed c3cRoot).map (fun fd => fd.episodes.map (fun ep => ep.description)) =
      Except.ok [some "<>"] ∧
    ("<>".data.contains '<') = true ∧ ("<>".data.contains '>') = true :=
  ⟨rfl, rfl, rfl⟩

/-- Claim C3 as amended: every episode record produced by the parser that
carries a description has one of at most 500 characters; the absence of
angle brackets is not guaranteed. -/
theorem episode_description_length_le (root : Xml) (fd : FeedData) (ep : EpisodeData)
    (d : String) (hp : parseFeed root = Except.ok fd) (hep : ep ∈ fd.episodes)
    (hd : ep.description = some d) :
    d.length ≤ 500 := by
  unfold parseFeed at hp
  cases hloc : locateChannel root with
  | none =>
    rw [hloc] at hp
    cases hp
  | some ch =>
    rw [hloc] at hp
    cases hp
    rw [extractEpisodes_eq] at hep
    obtain ⟨it, hit, hmk⟩ := List.mem_filterMap.mp hep
    obtain ⟨u, hu, hmku⟩ := Option.map_eq_some'.mp hmk
    subst hmku
    unfold mkEpisode at hd
    cases hft : findText it ["description", contentEncodedTag, itunesSummaryTag] with
    | none =>
      rw [hft] at hd
      cases hd
    | some s =>
      rw [hft] at hd
      by_cases hs : s = ""
      · simp only [hs, if_pos rfl, Option.some.injEq] at hd
        subst hd
        simp
      · simp only [if_neg hs, Option.some.injEq] at hd
        subst hd
        exact cleanDescription_length_le s

/-- Claim C3 witness at a concrete parsed document. -/
theorem episode_description_length_le_witness : ("hello" : String).length ≤ 500 :=
  episode_description_length_le c3wRoot c3wFd
    { guid := "http://a/e.mp3", title := "Untitled", description := some "hello",
      audio_url := "http://a/e.mp3", pub_date := none, duration := none }
    "hello" rfl (by decide) rfl

/-- Claim C4: the schema declares the cascade but get_db never enables the
sqlite foreign-key pragma, so deleting the feed removes the feed row while
its episode rows survive and the subsequent listing for that feed is not
empty; deleting a nonexistent id still succeeds unchanged. -/
theorem delete_feed_leaves_orphan_episodes :
    findFeed (deleteFeed c4Db 1) 1 = none ∧
    listEpisodes (deleteFeed c4Db 1) 1 ≠ [] ∧
    deleteFeed c4Db 99 = c4Db := by
  refine ⟨rfl, ?_, ?_⟩ <;> decide

/-- Claim C5: the natural-completion request sent when playback reaches the
end sets position to zero and played to true on the addressed episode in one
update, regardless of the prior state of the row. -/
theorem natural_completion_resets (db : DB) (eid : Nat) (e : EpisodeRow)
    (he : e ∈ db.episodes) (hid : e.id = eid) :
    ({ e with position := 0, played := true } ∈ (naturalCompletion db eid).fst.episodes) ∧
    ∀ e' ∈ (naturalCompletion db eid).fst.episodes, e'.id = eid →
      e'.position = 0 ∧ e'.played = true := by
  constructor
  · have hfe : (fun x : EpisodeRow =>
        if x.id = eid then { x with position := (0 : Rat), played := true } else x) e =
        { e with position := 0, played := true } := by
      simp [hid]
    unfold naturalCompletion updateProgress
    exact hfe ▸ List.mem_map_of_mem _ he
  · intro e' he' hid'
    unfold naturalCompletion updateProgress at he'
    obtain ⟨x, hx, hxe⟩ := List.mem_map.mp he'
    by_cases hxid : x.id = eid
    · rw [if_pos hxid] at hxe
      subst hxe
      exact ⟨rfl, rfl⟩
    · rw [if_neg hxid] at hxe
      subst hxe
      exact absurd hid' hxid

/-- Claim C5 witness at a concrete database holding an episode partway
through playback. -/
theorem natural_completion_resets_witness :
    ({ wEpisode with position := 0, played := true } ∈
        (naturalCompletion w2Db 7).fst.episodes) ∧
    ∀ e' ∈ (naturalCompletion w2Db 7).fst.episodes, e'.id = 7 →
      e'.position = 0 ∧ e'.played = true :=
  natural_completion_resets w2Db 7 wEpisode (by simp [w2Db]) rfl

/-- Claim C6: when the fetch or parse of a URL fails, adding a feed and
refreshing a feed leave the database exactly as it was: no feed row, no
episode rows, no metadata overwrite. -/
theorem fetch_failure_no_side_effects (db : DB) (rawUrl msg : String) (fid : Nat) :
    (addFeed (fun _ => Except.error msg) db rawUrl).fst = db ∧
    (refreshFeed db fid (Except.error msg)).fst = db := by
  constructor
  · unfold addFeed
    by_cases h1 : pyStrip rawUrl = ""
    · simp [h1]
    · by_cases h2 : feedUrlExists db (pyStrip rawUrl) <;> simp [h1, h2]
  · unfold refreshFeed
    cases findFeed db fid <;> rfl

/-- Claim C7: adding a URL already present in storage answers conflict with
the database untouched, and the result does not depend on the fetch oracle,
so no fetch is performed. -/
theorem add_existing_url_conflict (db : DB) (rawUrl : String)
    (h1 : pyStrip rawUrl ≠ "") (h2 : feedUrlExists db (pyStrip rawUrl) = true) :
    ∀ fetch, addFeed fetch db rawUrl = (db, AddResp.conflict) := by
  intro fetch
  unfold addFeed
  simp [h1, h2]

/-- Claim C7 witness: the stored URL, surrounded by whitespace in the
request, conflicts without consulting a fetch oracle that would fail. -/
theorem add_existing_url_conflict_witness :
    addFeed (fun _ => Except.error "network down") w1Db " http://f " =
      (w1Db, AddResp.conflict) :=
  add_existing_url_conflict w1Db " http://f " (by decide) (by decide)
    (fun _ => Except.error "network down")

/-- Claim C8 counterexample: an input containing a colon is not passed
through unchanged, because the source strips surrounding whitespace first. -/
theorem duration_colon_not_unchanged :
    parse_duration (some " 12:34") = some "12:34" ∧
    parse_duration (some " 12:34") ≠ some " 12:34" := by
  refine ⟨?_, ?_⟩ <;> decide

/-- Claim C8 as amended: the duration normalizer first strips surrounding
whitespace; a stripped string containing a colon is returned stripped, one
accepted by int is reformatted through fmtSeconds (hours then zero-padded
minutes and seconds when hours are positive, else unpadded minutes and
zero-padded seconds), any other stripped string is returned stripped, and
null or empty input yields null; the four documented examples hold. -/
theorem parse_duration_contract :
    parse_duration none = none ∧
    parse_duration (some "") = none ∧
    (∀ s : String, s ≠ "" → (pyStrip s).data.contains ':' = true →
      parse_duration (some s) = some (pyStrip s)) ∧
    (∀ (s : String) (n : Int), s ≠ "" → (pyStrip s).data.contains ':' = false →
      pyInt (pyStrip s) = some n → parse_duration (some s) = some (fmtSeconds n)) ∧
    (∀ s : String, s ≠ "" → (pyStrip s).data.contains ':' = false →
      pyInt (pyStrip s) = none → parse_duration (some s) = some (pyStrip s)) ∧
    parse_duration (some "125") = some "2:05" ∧
    parse_duration (some "3725") = some "1:02:05" ∧
    parse_duration (some "12:34") = some "12:34" ∧
    parse_duration (some "abc") = some "abc" := by
  refine ⟨rfl, by decide, ?_, ?_, ?_, by decide, by decide, by decide, by decide⟩
  · intro s hs hc
    have hc' : ':' ∈ (pyStrip s).data := by simpa using hc
    simp [parse_duration, hs, hc']
  · intro s n hs hc hi
    have hc' : ':' ∉ (pyStrip s).data := by simpa using hc
    simp [parse_duration, hs, hc', hi]
  · intro s hs hc hi
    have hc' : ':' ∉ (pyStrip s).data := by simpa using hc
    simp [parse_duration, hs, hc', hi]

/-- Claim C8 witness instantiating the three general clauses. -/
theorem parse_duration_contract_witness :
    parse_duration (some " 9:9 ") = some "9:9" ∧
    parse_duration (some " 61 ") = some (fmtSeconds 61) ∧
    parse_duration (some "x1") = some "x1" :=
  ⟨parse_duration_contract.2.2.1 " 9:9 " (by decide) (by decide),
   parse_duration_contract.2.2.2.1 " 61 " 61 (by decide) (by decide) (by decide),
   parse_duration_contract.2.2.2.2.1 "x1" (by decide) (by decide) (by decide)⟩

/-- Claim C10: a progress update or a played toggle addressed to an episode
id that is not stored succeeds with status 204 and leaves the database
unchanged. -/
theorem missing_episode_update_noop (db : DB) (eid : Nat) (pos : Rat) (pl : Bool)
    (h : ∀ e ∈ db.episodes, e.id ≠ eid) :
    updateProgress db eid pos pl = (db, 204) ∧ markPlayed db eid = (db, 204) := by
  have h1 : db.episodes.map (fun e =>
      if e.id = eid then { e with position := pos, played := pl } else e) = db.episodes :=
    map_fixed _ _ (fun e he => by simp [h e he])
  have h2 : db.episodes.map (fun e =>
      if e.id = eid then { e with played := !e.played } else e) = db.episodes :=
    map_fixed _ _ (fun e he => by simp [h e he])
  constructor
  · unfold updateProgress
    rw [h1]
  · unfold markPlayed
    rw [h2]

/-- Claim C10 witness: the database stores only episode id 7, and id 2 is
addressed. -/
theorem missing_episode_update_noop_witness :
    updateProgress w2Db 2 3 true = (w2Db, 204) ∧ markPlayed w2Db 2 = (w2Db, 204) :=
  missing_episode_update_noop w2Db 2 3 true (by decide)

end PodcastFeed

